import Mathlib

/-!
Verification of the `basic-llm-systm` repository against its specification.

The development shallowly embeds the Python sources:
  * `src/basic_research_agent.py` — the `ResearchAgent` pipeline
    (search → fetch → summarize → synthesize → persist),
  * `src/agent_chat.py` — the JSON-driven action-selection chat loop,
  * `src/get_weather.py` — the weather lookup tool.

External network services (search provider, HTTP fetch, language-model
backend, geocoding and weather APIs) are modelled as explicit environment
parameters delivering their responses; file-system effects are modelled by
an explicit state record threaded through the persistence step.  Python
strings are `String` (lists of characters); Python `None`-able values are
`Option`; uncaught Python exceptions are `Except.error`.
-/

namespace BasicLLM

/-! ### Python string primitives -/

/-- The ASCII whitespace characters recognised by Python's `str.strip` /
`str.rstrip` (the Unicode-only whitespace code points are not modelled;
no input produced by the embedded code contains them). -/
def pyIsSpace (c : Char) : Bool :=
  c = ' ' || c = '\t' || c = '\n' || c = '\r' || c = '\x0b' || c = '\x0c'

/-- Remove trailing whitespace characters, as Python's `str.rstrip()`. -/
def pyRStrip (l : List Char) : List Char :=
  (l.reverse.dropWhile pyIsSpace).reverse

/-- Remove leading and trailing whitespace, as Python's `str.strip()`. -/
def pyStrip (s : String) : String :=
  ⟨pyRStrip (s.data.dropWhile pyIsSpace)⟩

/-- `sep.join l`, as Python's `str.join`. -/
def strJoin (sep : String) : List String → String
  | [] => ""
  | h :: t => t.foldl (fun acc s => acc ++ sep ++ s) h

/-- Boolean prefix test on character lists. -/
def isPrefixB : List Char → List Char → Bool
  | [], _ => true
  | _ :: _, [] => false
  | a :: as, b :: bs => a = b && isPrefixB as bs

/-- Boolean contiguous-subsequence test: does `pat` occur inside the list?
Models Python's `pat in s` substring test. -/
def containsSeq (pat : List Char) : List Char → Bool
  | [] => isPrefixB pat []
  | c :: rest => isPrefixB pat (c :: rest) || containsSeq pat rest

/-- Split a character list at every occurrence of `sep`, keeping empty
pieces, as Python's `str.split(sep)` for a one-character separator. -/
def splitOnChar (sep : Char) : List Char → List (List Char)
  | [] => [[]]
  | c :: rest =>
    if c = sep then [] :: splitOnChar sep rest
    else
      match splitOnChar sep rest with
      | [] => [[c]]
      | h :: t => (c :: h) :: t

/-! ### `safe_filename` (src/basic_research_agent.py:29-30)

`"".join(c for c in text if c.isalnum() or c in (" ", "_", "-", "."))`
`.rstrip().replace(" ", "_")[:120]`.

`Char.isAlphanum` models Python's `str.isalnum` (ASCII approximation of
the Unicode classification; both classifications are disjoint from
whitespace, which is all the proofs use). -/

/-- The character filter of `safe_filename`: keep alphanumerics, space,
underscore, hyphen and dot. -/
def keepChar (c : Char) : Bool :=
  c.isAlphanum || c = ' ' || c = '_' || c = '-' || c = '.'

/-- `safe_filename` from src/basic_research_agent.py line 29: filter to the
kept character set, strip trailing whitespace, replace spaces by
underscores, truncate to 120 characters. -/
def safe_filename (text : String) : String :=
  ⟨(((pyRStrip (text.data.filter keepChar)).map
      (fun c => if c = ' ' then '_' else c)).take 120)⟩

/-! ### Data model (src/basic_research_agent.py) -/

/-- One raw search-provider result, the dictionaries produced by
`WebSearchTool.run`: `title`, `url` (the provider's `href`) and
`snippet` (the provider's `body`, defaulted to `""`). -/
structure RawResult where
  title : String
  url : String
  snippet : String
deriving DecidableEq

/-- `SourceDoc` (src/basic_research_agent.py:101-107): one discovered web
page.  `text` and `summary_bullets` are `None` until the fetch and
summarize stages set them. -/
structure SourceDoc where
  idx : Nat
  title : String
  url : String
  snippet : String := ""
  text : Option String := none
  summary_bullets : Option String := none
deriving DecidableEq

/-- `AgentConfig` (src/basic_research_agent.py:110-119).  The sampling
temperature is a float the pipeline only forwards to the backend; it is
not modelled (the backend is an opaque environment here). -/
structure AgentConfig where
  search_results : Nat := 6
  min_chars : Nat := 800
  per_source_bullets : Nat := 3
  final_bullets : Nat := 6
  model : String := "gpt-4o-mini"
  out_dir : String := "agent_output"
  memory_file : String := "memory.jsonl"

/-! ### Searcher (src/basic_research_agent.py:130-145) -/

/-- `url.split("/")[2] if "://" in url else url` — the deduplication
"domain" of a result URL.  When `"://"` occurs in the URL the split has at
least three pieces, so the `getD` default is never used. -/
def domainOf (url : String) : String :=
  if containsSeq "://".data url.data then
    ⟨(splitOnChar '/' url.data).getD 2 []⟩
  else url

/-- The deduplication key of a raw result: `(r["title"].strip(), domain)`. -/
def rawKey (r : RawResult) : String × String :=
  (pyStrip r.title, domainOf r.url)

/-- The `SourceDoc` built for the `idx`-th surviving result
(src/basic_research_agent.py:143). -/
def mkDoc (idx : Nat) (r : RawResult) : SourceDoc :=
  { idx := idx, title := pyStrip r.title, url := r.url, snippet := r.snippet }

/-- The loop body of `ResearchAgent.step_search`: walk the raw results,
skip any whose key was already seen, and give survivors consecutive
indices starting at `idx`. -/
def step_search_go : List RawResult → List (String × String) → Nat → List SourceDoc
  | [], _, _ => []
  | r :: rest, seen, idx =>
    if rawKey r ∈ seen then step_search_go rest seen idx
    else mkDoc idx r :: step_search_go rest (rawKey r :: seen) (idx + 1)

/-- `ResearchAgent.step_search` applied to the raw results returned by the
search provider: deduplicate and index from 1. -/
def step_search (raw : List RawResult) : List SourceDoc :=
  step_search_go raw [] 1

/-- Modelled from the spec's words, for comparison with `step_search`:
keep only the first occurrence of each (trimmed title, host) key. -/
def firstsBy : List RawResult → List (String × String) → List RawResult
  | [], _ => []
  | r :: rest, seen =>
    if rawKey r ∈ seen then firstsBy rest seen
    else r :: firstsBy rest (rawKey r :: seen)

/-- Modelled from the spec's words: the searcher keeps the first result
for each duplicate key and assigns indices 1..N in surviving order. -/
def search_spec (raw : List RawResult) : List SourceDoc :=
  (List.enumFrom 1 (firstsBy raw [])).map (fun p => mkDoc p.1 p.2)

/-! ### Fetcher (src/basic_research_agent.py:57-73 and 147-157) -/

/-- The environment's answer to one `session.get` call in
`WebPageLoader.fetch`: the response was not `ok`, a network/timeout
exception was raised, or a body was obtained and `trafilatura.extract`
returned `extracted` (`none` when extraction yields nothing). -/
inductive FetchOutcome where
  | httpError
  | exn
  | content (extracted : Option String)

/-- `WebPageLoader.fetch`: `None` on a non-ok response, `None` on an
exception, otherwise the extraction result. -/
def fetch : FetchOutcome → Option String
  | .httpError => none
  | .exn => none
  | .content extracted => extracted

/-- `ResearchAgent.step_fetch`: fetch each document's URL and keep the
document, with `text` set, exactly when `text and len(text) >= min_chars`
holds — the fetched text is truthy (non-`None`, non-empty) and long
enough. -/
def step_fetch (env : String → FetchOutcome) (min_chars : Nat) :
    List SourceDoc → List SourceDoc
  | [] => []
  | d :: rest =>
    match fetch (env d.url) with
    | some t =>
      if t ≠ "" ∧ min_chars ≤ t.length then
        { d with text := some t } :: step_fetch env min_chars rest
      else step_fetch env min_chars rest
    | none => step_fetch env min_chars rest

/-! ### LLM client (src/basic_research_agent.py:78-96)

The hosted chat-completion backend is an opaque environment
`backend : String → String → String` giving the raw
`rsp.choices[0].message.content` for a (system, user) message pair. -/

/-- `LLMClient.chat`: one backend call, returning the raw content with
leading and trailing whitespace stripped (`content.strip()`). -/
def chat (backend : String → String → String) (system user : String) : String :=
  pyStrip (backend system user)

/-- Truthiness of an optional string, as Python's `if x:` for a value
that is `None` or a `str`: false for `None` and for `""`. -/
def optTruthy : Option String → Bool
  | none => false
  | some s => s ≠ ""

/-! ### Summarizer (src/basic_research_agent.py:159-169) -/

/-- The fixed system message of `step_summarize_each`. -/
def summarizeSystem : String :=
  "You are a careful research assistant. Output only concise bullet points with facts."

/-- The user message built for one document: the fixed instruction, the
title, the URL, and the text truncated to its first 7000 characters. -/
def mkSummaryPrompt (k : Nat) (title url text : String) : String :=
  "Summarize the article into " ++ toString k ++
    " bullets.\n\nTITLE: " ++ title ++ "\nURL: " ++ url ++
    "\n\nARTICLE:\n" ++ text.take 7000

/-- `ResearchAgent.step_summarize_each`, instrumented with the trace of
(system, user) requests it sends: documents whose `text` is falsy are
left untouched (`if not d.text: continue`); each other document gets
`summary_bullets` set to the `chat` result for its prompt.  Returns the
updated documents in order together with the requests in the order they
were issued. -/
def step_summarize_each (backend : String → String → String) (k : Nat) :
    List SourceDoc → List SourceDoc × List (String × String)
  | [] => ([], [])
  | d :: rest =>
    let (docs, reqs) := step_summarize_each backend k rest
    match d.text with
    | none => (d :: docs, reqs)
    | some t =>
      if t = "" then (d :: docs, reqs)
      else
        let user := mkSummaryPrompt k d.title d.url t
        ({ d with summary_bullets := some (chat backend summarizeSystem user) } :: docs,
         (summarizeSystem, user) :: reqs)

/-! ### Synthesizer (src/basic_research_agent.py:171-185) -/

/-- The fixed system message of `step_synthesize_report`. -/
def synthesizeSystem : String :=
  "You are a synthesis assistant. Write a neutral summary with inline numeric citations [1], [2]."

/-- The documents that participate in synthesis: those whose
`summary_bullets` is truthy (`if d.summary_bullets` in both generator
expressions of `step_synthesize_report`). -/
def synthUsed (docs : List SourceDoc) : List SourceDoc :=
  docs.filter (fun d => optTruthy d.summary_bullets)

/-- The `Sources:` list of the synthesis prompt:
`"[{d.idx}] {d.title} — {d.url}"` joined by newlines over the
participating documents. -/
def sourcesList (docs : List SourceDoc) : String :=
  strJoin "\n" ((synthUsed docs).map fun d =>
    "[" ++ toString d.idx ++ "] " ++ d.title ++ " — " ++ d.url)

/-- The per-source bullet block of the synthesis prompt:
`"[{d.idx}] {d.summary_bullets}"` joined by blank lines over the
participating documents. -/
def perSourcePoints (docs : List SourceDoc) : String :=
  strJoin "\n\n" ((synthUsed docs).map fun d =>
    "[" ++ toString d.idx ++ "] " ++ (d.summary_bullets.getD ""))

/-- The user message of `step_synthesize_report`. -/
def mkSynthPrompt (final_bullets : Nat) (query : String) (docs : List SourceDoc) : String :=
  "QUESTION: " ++ query ++
    "\n\nPER-SOURCE BULLETS:\n" ++ perSourcePoints docs ++
    "\n\nWrite the report with:\n" ++
    "1) Executive summary: " ++ toString final_bullets ++ " bullets.\n" ++
    "2) Key points with inline citations.\n" ++
    "3) List of sources.\n\n" ++
    "Sources:\n" ++ sourcesList docs

/-- `ResearchAgent.step_synthesize_report`: one backend call on the
synthesis prompt; its return value is the final report. -/
def step_synthesize_report (backend : String → String → String)
    (final_bullets : Nat) (query : String) (docs : List SourceDoc) : String :=
  chat backend synthesizeSystem (mkSynthPrompt final_bullets query docs)

/-! ### Persister (src/basic_research_agent.py:187-203) -/

/-- One line of the memory log (`memory.jsonl`): the run record that
`persist_run` serialises with `json.dumps` and appends.  Each
`RunRecord` value models one serialised JSON line. -/
structure RunRecord where
  timestamp : String
  query : String
  model : String
  sources : List (Nat × String × String)
  report_preview : String
deriving DecidableEq

/-- The run record built by `persist_run`: timestamp, query, model, the
`(idx, title, url)` triples of the documents with truthy
`summary_bullets`, and the first 500 characters of the report. -/
def mkRunRecord (cfg : AgentConfig) (query : String) (docs : List SourceDoc)
    (report_md : String) (ts : String) : RunRecord :=
  { timestamp := ts
    query := query
    model := cfg.model
    sources := (docs.filter (fun d => optTruthy d.summary_bullets)).map
      (fun d => (d.idx, d.title, d.url))
    report_preview := report_md.take 500 }

/-- The file-system state the persister touches: the memory log at
`out_dir/memory_file` (`none` while the file does not exist, otherwise
its list of lines), and the report files as (path, content) pairs where
the first pair for a path is its current content (a fresh `open(..,"w")`
write shadows any earlier file at the same path). -/
structure FS where
  log : Option (List RunRecord)
  reports : List (String × String)
deriving DecidableEq

/-- The content of the report file at `path`, if one was written. -/
def FS.readReport (fs : FS) (path : String) : Option String :=
  (fs.reports.find? (fun p => p.1 = path)).map (fun p => p.2)

/-- The report file name: `safe_filename(f"{ts}_{query}.md")`. -/
def reportName (ts query : String) : String :=
  safe_filename (ts ++ "_" ++ query ++ ".md")

/-- `ResearchAgent.persist_run`: append one record line to the memory log
(creating the file when absent — `open(path, "a")`), write the full
report to `out_dir/safe_filename(...)`, and return that path. -/
def persist_run (cfg : AgentConfig) (query : String) (docs : List SourceDoc)
    (report_md : String) (ts : String) (fs : FS) : FS × String :=
  let record := mkRunRecord cfg query docs report_md ts
  let out_path := cfg.out_dir ++ "/" ++ reportName ts query
  ({ log := some ((fs.log.getD []) ++ [record])
     reports := (out_path, report_md) :: fs.reports },
   out_path)

/-! ### The pipeline (src/basic_research_agent.py:205-214) -/

/-- The documents surviving the fetch stage of a run. -/
def run_kept (env : String → FetchOutcome) (cfg : AgentConfig)
    (raw : List RawResult) : List SourceDoc :=
  step_fetch env cfg.min_chars (step_search raw)

/-- The documents entering synthesis and persistence in a run:
summarized, then filtered to those with truthy `summary_bullets`
(`docs = [d for d in docs if d.summary_bullets]`). -/
def run_docs (env : String → FetchOutcome) (backend : String → String → String)
    (cfg : AgentConfig) (raw : List RawResult) : List SourceDoc :=
  (step_summarize_each backend cfg.per_source_bullets (run_kept env cfg raw)).1.filter
    (fun d => optTruthy d.summary_bullets)

/-- `ResearchAgent.run`: search, fetch, abort with
`RuntimeError("No usable sources found.")` when nothing survives the
fetch stage (leaving the file system untouched), otherwise summarize,
synthesize, persist, and return the report path. -/
def run (env : String → FetchOutcome) (backend : String → String → String)
    (cfg : AgentConfig) (ts query : String) (raw : List RawResult)
    (fs : FS) : FS × Except String String :=
  if (run_kept env cfg raw).isEmpty then
    (fs, .error "No usable sources found.")
  else
    let docs := run_docs env backend cfg raw
    let report := step_synthesize_report backend cfg.final_bullets query docs
    let (fs2, out_path) := persist_run cfg query docs report ts fs
    (fs2, .ok out_path)

/-! ### JSON values and `json.loads` (src/agent_chat.py)

A JSON value as produced by Python's `json.loads`.  Numbers keep their
raw numeral text: the pipeline never computes with them (they would only
be formatted back into messages, which no claim exercises). -/

inductive Json where
  | null
  | bool (b : Bool)
  | num (raw : String)
  | str (s : String)
  | arr (elems : List Json)
  | obj (members : List (String × Json))

/-- JSON inter-token whitespace. -/
def jsonWs (c : Char) : Bool :=
  c = ' ' || c = '\t' || c = '\n' || c = '\r'

/-- Skip JSON whitespace. -/
def skipWs : List Char → List Char
  | [] => []
  | c :: rest => if jsonWs c then skipWs rest else c :: rest

/-- Is `c` a hexadecimal digit character? -/
def isHexDig (c : Char) : Bool :=
  c.isDigit || ('a' ≤ c && c ≤ 'f') || ('A' ≤ c && c ≤ 'F')

/-- The value of a hexadecimal digit character. -/
def hexVal (c : Char) : Nat :=
  if c.isDigit then c.toNat - 48
  else if 'a' ≤ c ∧ c ≤ 'f' then c.toNat - 87
  else if 'A' ≤ c ∧ c ≤ 'F' then c.toNat - 55
  else 0

/-- The character denoted by a one-letter JSON escape sequence, if any. -/
def escChar (e : Char) : Option Char :=
  if e = '"' then some '"'
  else if e = '\\' then some '\\'
  else if e = '/' then some '/'
  else if e = 'b' then some '\x08'
  else if e = 'f' then some '\x0c'
  else if e = 'n' then some '\n'
  else if e = 'r' then some '\r'
  else if e = 't' then some '\t'
  else none

/-- Decode one JSON string body (the characters after the opening quote):
returns the decoded text and the input after the closing quote.  Handles
the escape sequences of RFC 8259 (`\uXXXX` without surrogate pairing,
which no embedded input uses); unescaped control characters are
rejected, as Python's strict-mode `json.loads` does. -/
def parseStringBody : List Char → Option (String × List Char)
  | [] => none
  | c :: rest =>
    if c = '"' then some ("", rest)
    else if c = '\\' then
      match rest with
      | 'u' :: h1 :: h2 :: h3 :: h4 :: rest3 =>
        if isHexDig h1 && isHexDig h2 && isHexDig h3 && isHexDig h4 then
          (parseStringBody rest3).map (fun p =>
            (⟨Char.ofNat (4096 * hexVal h1 + 256 * hexVal h2 + 16 * hexVal h3 + hexVal h4)
               :: p.1.data⟩, p.2))
        else none
      | e :: rest2 =>
        match escChar e with
        | some ch => (parseStringBody rest2).map (fun p => (⟨ch :: p.1.data⟩, p.2))
        | none => none
      | [] => none
    else if c.toNat < 32 then none
    else (parseStringBody rest).map (fun p => (⟨c :: p.1.data⟩, p.2))

/-- Longest leading run of decimal digits, and the rest of the input. -/
def takeDigits : List Char → List Char × List Char
  | [] => ([], [])
  | c :: rest =>
    if c.isDigit then
      let (ds, r) := takeDigits rest
      (c :: ds, r)
    else ([], c :: rest)

/-- The optional fraction part of a JSON number. -/
def parseFracPart : List Char → Option (List Char × List Char)
  | '.' :: r =>
    let (ds, r2) := takeDigits r
    if ds = [] then none else some ('.' :: ds, r2)
  | l => some ([], l)

/-- The optional exponent part of a JSON number. -/
def parseExpPart : List Char → Option (List Char × List Char)
  | c :: r =>
    if c = 'e' ∨ c = 'E' then
      let (sgn, r1) :=
        match r with
        | s :: r2 => if s = '+' ∨ s = '-' then ([s], r2) else (([] : List Char), s :: r2)
        | [] => ([], [])
      let (ds, r3) := takeDigits r1
      if ds = [] then none else some (c :: (sgn ++ ds), r3)
    else some ([], c :: r)
  | [] => some ([], [])

/-- A JSON numeral: optional minus, integer part with no leading zero,
optional fraction, optional exponent.  Returns the numeral text. -/
def parseNumber (l : List Char) : Option (String × List Char) :=
  let (sign, l1) := match l with
    | '-' :: rest => (['-'], rest)
    | _ => (([] : List Char), l)
  let (ints, l2) := takeDigits l1
  if ints = [] then none
  else if 1 < ints.length ∧ ints.head? = some '0' then none
  else
    match parseFracPart l2 with
    | none => none
    | some (frac, l3) =>
      match parseExpPart l3 with
      | none => none
      | some (ex, l4) => some (⟨sign ++ ints ++ frac ++ ex⟩, l4)

/-- The recursive JSON parser, indexed by fuel so that the recursion is
structural: at each fuel level, a value parser, an object-members parser
(from the first key up to and including the closing brace) and an
array-elements parser (from the first element up to and including the
closing bracket).  `2 * length + 2` fuel always suffices, since every
two nested calls consume at least one character. -/
def parsersAux : Nat →
    (List Char → Option (Json × List Char)) ×
    (List Char → Option (List (String × Json) × List Char)) ×
    (List Char → Option (List Json × List Char))
  | 0 => (fun _ => none, fun _ => none, fun _ => none)
  | n + 1 =>
    let pv := (parsersAux n).1
    let pm := (parsersAux n).2.1
    let pe := (parsersAux n).2.2
    ( fun l =>
        match skipWs l with
        | [] => none
        | c :: rest =>
          if c = '\x7b' then
            match skipWs rest with
            | c2 :: r2 =>
              if c2 = '\x7d' then some (Json.obj [], r2)
              else (pm (c2 :: r2)).map (fun p => (Json.obj p.1, p.2))
            | [] => none
          else if c = '[' then
            match skipWs rest with
            | c2 :: r2 =>
              if c2 = ']' then some (Json.arr [], r2)
              else (pe (c2 :: r2)).map (fun p => (Json.arr p.1, p.2))
            | [] => none
          else if c = '"' then
            (parseStringBody rest).map (fun p => (Json.str p.1, p.2))
          else if isPrefixB "true".data (c :: rest) then
            some (Json.bool true, (c :: rest).drop 4)
          else if isPrefixB "false".data (c :: rest) then
            some (Json.bool false, (c :: rest).drop 5)
          else if isPrefixB "null".data (c :: rest) then
            some (Json.null, (c :: rest).drop 4)
          else if isPrefixB "NaN".data (c :: rest) then
            some (Json.num "NaN", (c :: rest).drop 3)
          else if isPrefixB "Infinity".data (c :: rest) then
            some (Json.num "Infinity", (c :: rest).drop 8)
          else if isPrefixB "-Infinity".data (c :: rest) then
            some (Json.num "-Infinity", (c :: rest).drop 9)
          else
            (parseNumber (c :: rest)).map (fun p => (Json.num p.1, p.2)),
      fun l =>
        match skipWs l with
        | '"' :: r =>
          match parseStringBody r with
          | none => none
          | some (key, r2) =>
            match skipWs r2 with
            | ':' :: r3 =>
              match pv r3 with
              | none => none
              | some (v, r4) =>
                match skipWs r4 with
                | ',' :: r5 => (pm r5).map (fun p => ((key, v) :: p.1, p.2))
                | c5 :: r5 =>
                  if c5 = '\x7d' then some ([(key, v)], r5) else none
                | [] => none
            | _ => none
        | _ => none,
      fun l =>
        match pv l with
        | none => none
        | some (v, r) =>
          match skipWs r with
          | ',' :: r2 => (pe r2).map (fun p => (v :: p.1, p.2))
          | ']' :: r2 => some ([v], r2)
          | _ => none )

/-- Parse one JSON value from the front of the input. -/
def parseJsonVal (l : List Char) : Option (Json × List Char) :=
  (parsersAux (2 * l.length + 2)).1 l

/-- Python's `json.loads`: the whole string, up to surrounding
whitespace, must be one JSON value. -/
def jsonLoads (s : String) : Option Json :=
  match parseJsonVal s.data with
  | some (v, rest) => if skipWs rest = [] then some v else none
  | none => none

/-! ### `safe_json_parse` and `execute_action` (src/agent_chat.py:73-112) -/

/-- `re.search(r"\x7b.*\x7d", output, re.DOTALL)`: the leftmost-greedy
match runs from the first opening brace that precedes the last closing
brace, to that last closing brace. -/
def extractBlock (s : String) : Option String :=
  let l := s.data
  match l.reverse.findIdx? (fun c => c = '\x7d') with
  | none => none
  | some k =>
    let j := l.length - 1 - k
    match (l.take j).findIdx? (fun c => c = '\x7b') with
    | none => none
    | some i => some ⟨(l.drop i).take (j - i + 1)⟩

/-- The fallback result of `safe_json_parse`:
`{"action": "answer", "args": {"text": output}}`. -/
def fallbackAnswer (output : String) : Json :=
  Json.obj [("action", Json.str "answer"), ("args", Json.obj [("text", Json.str output)])]

/-- `safe_json_parse`: strip the output; try `json.loads` on the whole
string; failing that, try it on the first brace-delimited block; failing
that, treat the stripped output as a plain answer. -/
def safe_json_parse (output : String) : Json :=
  let out := pyStrip output
  match jsonLoads out with
  | some v => v
  | none =>
    match extractBlock out with
    | some block =>
      match jsonLoads block with
      | some v => v
      | none => fallbackAnswer out
    | none => fallbackAnswer out

/-- Python `dict.get` on an object built from parsed members (a later
duplicate key overrides an earlier one). -/
def jget (members : List (String × Json)) (k : String) : Option Json :=
  (members.reverse.find? (fun p => p.1 == k)).map (fun p => p.2)

/-- Python's `str()` of a decoded JSON value, as interpolated into the
f-strings of `agent_chat.py`.  Numeric and container formatting is
approximated by the raw token text and a fixed marker — no claim
exercises those branches (every exercised argument is a string). -/
def pyDisplay : Json → String
  | Json.null => "None"
  | Json.bool true => "True"
  | Json.bool false => "False"
  | Json.num raw => raw
  | Json.str s => s
  | Json.arr _ => "[...]"
  | Json.obj _ => "(dict)"

/-- `str()` of `action_obj.get("action")`, which may be `None`. -/
def pyDisplayOpt : Option Json → String
  | none => "None"
  | some v => pyDisplay v

/-- `web_search` (src/agent_chat.py:34-36). -/
def web_search (query : String) : String :=
  "Puedes ver resultados en: https://duckduckgo.com/?q=" ++
    ⟨query.data.map (fun c => if c = ' ' then '+' else c)⟩

/-! ### `get_weather` (src/get_weather.py:3-25, identical in
src/agent_chat.py:10-30)

The two HTTP APIs are environments from request URL to decoded JSON
response body.  A response's `results` field is `none` when the key is
absent and `some rs` when present with list value `rs`; coordinates are
kept in the textual form in which the f-string interpolates them. -/

structure GeoResult where
  latitude : String
  longitude : String

structure GeoResponse where
  results : Option (List GeoResult)

structure CurrentWeather where
  temperature : String
  windspeed : String

structure WeatherResponse where
  current_weather : Option CurrentWeather

/-- The geocoding request URL for a city. -/
def geoUrl (city : String) : String :=
  "https://geocoding-api.open-meteo.com/v1/search?name=" ++ city ++
    "&count=1&language=es&format=json"

/-- The forecast request URL for coordinates. -/
def weatherUrl (lat lon : String) : String :=
  "https://api.open-meteo.com/v1/forecast?latitude=" ++ lat ++
    "&longitude=" ++ lon ++ "&current_weather=true&timezone=auto"

/-- `get_weather`: report "city not found" when the geocoding response
has no `results` key; index `results[0]` (an uncaught `IndexError` when
the key is present with an empty list); report "could not get weather"
when the forecast response has no `current_weather` key; otherwise
format the current temperature and wind speed. -/
def get_weather (geoEnv : String → GeoResponse) (wxEnv : String → WeatherResponse)
    (city : String) : Except String String :=
  let geo_data := geoEnv (geoUrl city)
  match geo_data.results with
  | none => .ok ("No encontré la ciudad " ++ city ++ ".")
  | some rs =>
    match rs with
    | [] => .error "IndexError: list index out of range"
    | r :: _ =>
      let weather_data := wxEnv (weatherUrl r.latitude r.longitude)
      match weather_data.current_weather with
      | none => .ok "No pude obtener el clima en este momento."
      | some cw =>
        .ok ("El clima en " ++ city ++ " es " ++ cw.temperature ++
          "°C con viento de " ++ cw.windspeed ++ " km/h.")

/-- `execute_action` (src/agent_chat.py:99-112): parse the model output,
read `action` and `args` from the resulting dictionary, and dispatch.
`Except.error` models an uncaught Python exception (`.get` on a
non-dictionary value, or an `IndexError` inside `get_weather`). -/
def execute_action (geoEnv : String → GeoResponse) (wxEnv : String → WeatherResponse)
    (model_output : String) : Except String Json :=
  match safe_json_parse model_output with
  | Json.obj kvs =>
    let action := jget kvs "action"
    let args := (jget kvs "args").getD (Json.obj [])
    match action with
    | some (Json.str a) =>
      if a = "get_weather" then
        match args with
        | Json.obj akvs =>
          (get_weather geoEnv wxEnv (pyDisplay ((jget akvs "city").getD (Json.str "")))).map Json.str
        | _ => .error "AttributeError"
      else if a = "web_search" then
        match args with
        | Json.obj akvs =>
          .ok (Json.str (web_search (pyDisplay ((jget akvs "query").getD (Json.str "")))))
        | _ => .error "AttributeError"
      else if a = "answer" then
        match args with
        | Json.obj akvs => .ok ((jget akvs "text").getD (Json.str ""))
        | _ => .error "AttributeError"
      else .ok (Json.str ("[Error: acción desconocida " ++ a ++ "]"))
    | _ =>
      .ok (Json.str ("[Error: acción desconocida " ++ pyDisplayOpt action ++ "]"))
  | _ => .error "AttributeError"

/-! ### Helper lemmas -/

lemma mem_pyRStrip {c : Char} {l : List Char} (h : c ∈ pyRStrip l) : c ∈ l := by
  rw [pyRStrip, List.mem_reverse] at h
  exact List.mem_reverse.1 ((List.dropWhile_sublist pyIsSpace).subset h)

lemma dropWhile_eq_self_of_all {α : Type} {p : α → Bool} {l : List α}
    (h : ∀ c ∈ l, p c = false) : l.dropWhile p = l := by
  cases l with
  | nil => rfl
  | cons a t => rw [List.dropWhile_cons, h a (List.mem_cons_self a t)]; simp

lemma pyRStrip_eq_self_of_all {l : List Char}
    (h : ∀ c ∈ l, pyIsSpace c = false) : pyRStrip l = l := by
  rw [pyRStrip, dropWhile_eq_self_of_all (fun c hc => h c (List.mem_reverse.1 hc)),
    List.reverse_reverse]

lemma safe_filename_chars {s : String} {c : Char} (h : c ∈ (safe_filename s).data) :
    keepChar c = true ∧ c ≠ ' ' := by
  unfold safe_filename at h
  have h1 := List.take_subset _ _ h
  obtain ⟨a, ha, rfl⟩ := List.mem_map.1 h1
  have hk : keepChar a = true := (List.mem_filter.1 (mem_pyRStrip ha)).2
  by_cases hsp : a = ' '
  · subst hsp
    exact ⟨by decide, by decide⟩
  · rw [if_neg hsp]
    exact ⟨hk, hsp⟩

lemma keep_not_space {c : Char} (hk : keepChar c = true) (hne : c ≠ ' ') :
    pyIsSpace c = false := by
  by_contra h
  rw [Bool.not_eq_false] at h
  have h' : c = ' ' ∨ c = '\t' ∨ c = '\n' ∨ c = '\r' ∨ c = '\x0b' ∨ c = '\x0c' := by
    simpa [pyIsSpace, or_assoc] using h
  rcases h' with h | h | h | h | h | h
  · exact hne h
  all_goals subst h; exact absurd hk (by decide)

lemma safe_filename_data_length (s : String) : (safe_filename s).data.length ≤ 120 := by
  unfold safe_filename
  simp [List.length_take]

/-- Claim C10: `safe_filename` is idempotent, and its output contains only
kept characters, contains no space (hence no whitespace at all and no
trailing whitespace), and is within the 120-character cap. -/
theorem safe_filename_idempotent :
    ∀ s : String,
      safe_filename (safe_filename s) = safe_filename s ∧
      ((safe_filename s).data.all fun c => keepChar c && !(c = ' ')) = true ∧
      pyRStrip (safe_filename s).data = (safe_filename s).data ∧
      (safe_filename s).length ≤ 120 := by
  intro s
  have hch : ∀ c ∈ (safe_filename s).data, keepChar c = true ∧ c ≠ ' ' :=
    fun c h => safe_filename_chars h
  have hns : ∀ c ∈ (safe_filename s).data, pyIsSpace c = false :=
    fun c h => keep_not_space (hch c h).1 (hch c h).2
  have hstrip : pyRStrip (safe_filename s).data = (safe_filename s).data :=
    pyRStrip_eq_self_of_all hns
  refine ⟨?_, ?_, hstrip, safe_filename_data_length s⟩
  · conv_lhs => rw [safe_filename]
    rw [List.filter_eq_self.2 (fun a ha => (hch a ha).1), hstrip]
    have h1 : ∀ a ∈ (safe_filename s).data,
        (fun c => if c = ' ' then '_' else c) a = id a :=
      fun a ha => if_neg (hch a ha).2
    rw [List.map_congr_left h1, List.map_id]
    rw [List.take_of_length_le (safe_filename_data_length s)]
  · rw [List.all_eq_true]
    intro c h
    rw [Bool.and_eq_true, (hch c h).1, Bool.not_eq_true', decide_eq_false_iff_not]
    exact ⟨rfl, (hch c h).2⟩

/-- Claim C7: the report file name built by `persist_run` contains only
alphanumeric, space, underscore, hyphen and dot characters (the
`keepChar` set) and is capped at 120 characters, and `persist_run`
returns the path of the report file it wrote. -/
theorem persist_run_report_path :
    ∀ (cfg : AgentConfig) (query : String) (docs : List SourceDoc)
      (report_md ts : String) (fs : FS),
      (persist_run cfg query docs report_md ts fs).2 =
        cfg.out_dir ++ "/" ++ reportName ts query ∧
      (persist_run cfg query docs report_md ts fs).1.readReport
        ((persist_run cfg query docs report_md ts fs).2) = some report_md ∧
      ((reportName ts query).data.all fun c => keepChar c) = true ∧
      (reportName ts query).length ≤ 120 := by
  intro cfg query docs report_md ts fs
  refine ⟨rfl, ?_, ?_, safe_filename_data_length _⟩
  · rw [persist_run, FS.readReport]
    simp
  · rw [List.all_eq_true]
    exact fun c h => (safe_filename_chars h).1

lemma step_search_go_eq :
    ∀ (raw : List RawResult) (seen : List (String × String)) (idx : Nat),
      step_search_go raw seen idx =
        (List.enumFrom idx (firstsBy raw seen)).map (fun p => mkDoc p.1 p.2) := by
  intro raw
  induction raw with
  | nil => intro seen idx; rfl
  | cons r rest ih =>
    intro seen idx
    rw [step_search_go, firstsBy]
    by_cases h : rawKey r ∈ seen
    · rw [if_pos h, if_pos h, ih]
    · rw [if_neg h, if_neg h]
      simp only [List.enumFrom_cons, List.map_cons]
      exact congrArg (mkDoc idx r :: ·) (ih _ _)

lemma step_search_idx_range (raw : List RawResult) :
    (step_search raw).map (fun d => d.idx) =
      List.range' 1 (step_search raw).length := by
  have h := step_search_go_eq raw [] 1
  rw [step_search, h, List.map_map, List.length_map]
  have h1 : ((fun d => d.idx) ∘ fun p : Nat × RawResult => mkDoc p.1 p.2) = Prod.fst := by
    funext p
    rfl
  rw [h1, List.enumFrom_map_fst, List.enumFrom_length]

/-- Claim C1: for every list of raw search results, `step_search` keeps
only the first result for each duplicate (trimmed title, URL host) key
— it equals the spec-side `search_spec` — and assigns `idx` values
contiguously 1..N in surviving order, with no gaps. -/
theorem step_search_dedup_indexing :
    ∀ raw : List RawResult,
      step_search raw = search_spec raw ∧
      (step_search raw).map (fun d => d.idx) =
        List.range' 1 (step_search raw).length :=
  fun raw => ⟨step_search_go_eq raw [] 1, step_search_idx_range raw⟩

lemma step_fetch_cons_none {env : String → FetchOutcome} {mc : Nat}
    {d : SourceDoc} {rest : List SourceDoc} (hf : fetch (env d.url) = none) :
    step_fetch env mc (d :: rest) = step_fetch env mc rest := by
  rw [step_fetch, hf]

lemma step_fetch_cons_some {env : String → FetchOutcome} {mc : Nat}
    {d : SourceDoc} {rest : List SourceDoc} {t : String}
    (hf : fetch (env d.url) = some t) :
    step_fetch env mc (d :: rest) =
      if t ≠ "" ∧ mc ≤ t.length then
        { d with text := some t } :: step_fetch env mc rest
      else step_fetch env mc rest := by
  rw [step_fetch, hf]

lemma step_fetch_mem_iff (env : String → FetchOutcome) (mc : Nat)
    (docs : List SourceDoc) (d' : SourceDoc) :
    d' ∈ step_fetch env mc docs ↔
      ∃ d ∈ docs, ∃ t, fetch (env d.url) = some t ∧ t ≠ "" ∧ mc ≤ t.length ∧
        d' = { d with text := some t } := by
  induction docs with
  | nil => simp [step_fetch]
  | cons d rest ih =>
    cases hf : fetch (env d.url) with
    | none =>
      rw [step_fetch_cons_none hf, ih]
      constructor
      · rintro ⟨d0, h0, hrest⟩
        exact ⟨d0, List.mem_cons_of_mem d h0, hrest⟩
      · rintro ⟨d0, h0, t, hsome, hrest⟩
        rcases List.mem_cons.1 h0 with rfl | h0
        · rw [hf] at hsome
          exact absurd hsome (Option.noConfusion)
        · exact ⟨d0, h0, t, hsome, hrest⟩
    | some t =>
      rw [step_fetch_cons_some hf]
      by_cases hc : t ≠ "" ∧ mc ≤ t.length
      · rw [if_pos hc]
        simp only [List.mem_cons, ih]
        constructor
        · rintro (rfl | ⟨d0, h0, hrest⟩)
          · exact ⟨d, Or.inl rfl, t, hf, hc.1, hc.2, rfl⟩
          · exact ⟨d0, Or.inr h0, hrest⟩
        · rintro ⟨d0, rfl | h0, t', hsome, ht', hlen, rfl⟩
          · rw [hf] at hsome
            cases hsome
            exact Or.inl rfl
          · exact Or.inr ⟨d0, h0, t', hsome, ht', hlen, rfl⟩
      · rw [if_neg hc, ih]
        constructor
        · rintro ⟨d0, h0, hrest⟩
          exact ⟨d0, List.mem_cons_of_mem d h0, hrest⟩
        · rintro ⟨d0, h0, t', hsome, ht', hlen, hd'⟩
          rcases List.mem_cons.1 h0 with rfl | h0
          · rw [hf] at hsome
            cases hsome
            exact absurd ⟨ht', hlen⟩ hc
          · exact ⟨d0, h0, t', hsome, ht', hlen, hd'⟩

/-- Claim C2 (amended): `fetch` yields no text on a non-ok response, on
an exception, and on empty extraction, indistinguishably; the fetch
stage keeps a document, with `text` set, exactly when the fetched text
is non-empty and at least `min_chars` long; consequently every document
in the input to the summarize stage of a run has non-empty text of at
least the configured minimum length. -/
theorem step_fetch_keeps_iff :
    ∀ (env : String → FetchOutcome) (mc : Nat) (docs : List SourceDoc),
      (fetch FetchOutcome.httpError = none ∧ fetch FetchOutcome.exn = none ∧
        fetch (FetchOutcome.content none) = none) ∧
      (∀ d', d' ∈ step_fetch env mc docs ↔
        ∃ d ∈ docs, ∃ t, fetch (env d.url) = some t ∧ t ≠ "" ∧ mc ≤ t.length ∧
          d' = { d with text := some t }) ∧
      (∀ (cfg : AgentConfig) (raw : List RawResult), ∀ d' ∈ run_kept env cfg raw,
        ∃ t, d'.text = some t ∧ t ≠ "" ∧ cfg.min_chars ≤ t.length) := by
  intro env mc docs
  refine ⟨⟨rfl, rfl, rfl⟩, fun d' => step_fetch_mem_iff env mc docs d', ?_⟩
  intro cfg raw d' hd'
  obtain ⟨d0, _, t, _, ht, hlen, rfl⟩ :=
    (step_fetch_mem_iff env cfg.min_chars (step_search raw) d').1 hd'
  exact ⟨t, rfl, ht, hlen⟩

/-- Counterexample to claim C2 as stated: with `min_chars = 0` and an
extraction that returns the empty string, fetching produced extracted
text of length at least the minimum, yet the document is dropped
(`if text and len(text) >= min_chars` is false for falsy `""`). -/
theorem step_fetch_counterexample :
    fetch (FetchOutcome.content (some "")) = some "" ∧
    (0 : Nat) ≤ ("" : String).length ∧
    step_fetch (fun _ => FetchOutcome.content (some "")) 0
      [{ idx := 1, title := "t", url := "u" }] = [] ∧
    ¬ (∀ (env : String → FetchOutcome) (mc : Nat) (docs : List SourceDoc),
        ∀ d ∈ docs, (∃ t, fetch (env d.url) = some t ∧ mc ≤ t.length) →
          ∃ d' ∈ step_fetch env mc docs, d'.idx = d.idx) := by
  refine ⟨rfl, Nat.le_refl 0, rfl, ?_⟩
  intro h
  obtain ⟨d', hd', _⟩ :=
    h (fun _ => FetchOutcome.content (some "")) 0
      [{ idx := 1, title := "t", url := "u" }]
      { idx := 1, title := "t", url := "u" } (List.mem_singleton_self _)
      ⟨"", rfl, Nat.le_refl 0⟩
  exact absurd hd' (List.not_mem_nil d')

/-- Witness for claim C2: a concrete surviving document of a concrete
run has its non-empty text of at least the configured minimum length. -/
theorem step_fetch_keeps_iff_witness :
    ∃ t, (({ idx := 1, title := "t", url := "u", text := some "ab" } : SourceDoc)).text =
        some t ∧ t ≠ "" ∧ ({ min_chars := 1 } : AgentConfig).min_chars ≤ t.length :=
  (step_fetch_keeps_iff (fun _ => FetchOutcome.content (some "ab")) 1 []).2.2
    { min_chars := 1 } [{ title := "t", url := "u", snippet := "" }]
    { idx := 1, title := "t", url := "u", text := some "ab" }
    (by
      rw [show run_kept (fun _ => FetchOutcome.content (some "ab")) { min_chars := 1 }
          [{ title := "t", url := "u", snippet := "" }] =
          [{ idx := 1, title := "t", url := "u", text := some "ab" }] from rfl]
      exact List.mem_singleton_self _)

/-- Claim C3: when no document survives the fetch stage, `run` aborts
with the fatal "No usable sources found." error and leaves the file
system (memory log and report files) exactly as it was. -/
theorem run_no_usable_sources :
    ∀ (env : String → FetchOutcome) (backend : String → String → String)
      (cfg : AgentConfig) (ts query : String) (raw : List RawResult) (fs : FS),
      run_kept env cfg raw = [] →
      run env backend cfg ts query raw fs = (fs, .error "No usable sources found.") := by
  intro env backend cfg ts query raw fs h
  rw [run, h]
  rfl

/-- Witness for claim C3: a concrete run in which every fetch raises a
network error aborts and leaves the file system untouched. -/
theorem run_no_usable_sources_witness :
    run (fun _ => FetchOutcome.exn) (fun _ _ => "") {} "2024-01-01T00:00:00Z" "q"
      [{ title := "t", url := "https://a.com/x", snippet := "s" }]
      { log := none, reports := [] } =
    ({ log := none, reports := [] }, .error "No usable sources found.") :=
  run_no_usable_sources (fun _ => FetchOutcome.exn) (fun _ _ => "") {}
    "2024-01-01T00:00:00Z" "q" [{ title := "t", url := "https://a.com/x", snippet := "s" }]
    { log := none, reports := [] } rfl

/-- Claim C6: `persist_run` appends exactly one new record line to the
memory log, creating the file when absent, and the previous lines are
preserved unchanged as the front of the new log. -/
theorem persist_run_appends_one_line :
    ∀ (cfg : AgentConfig) (query : String) (docs : List SourceDoc)
      (report_md ts : String) (fs : FS),
      (persist_run cfg query docs report_md ts fs).1.log =
        some ((fs.log.getD []) ++ [mkRunRecord cfg query docs report_md ts]) ∧
      ((persist_run cfg query docs report_md ts fs).1.log.getD []).take
        (fs.log.getD []).length = fs.log.getD [] := by
  intro cfg query docs report_md ts fs
  refine ⟨rfl, ?_⟩
  rw [show (persist_run cfg query docs report_md ts fs).1.log =
      some ((fs.log.getD []) ++ [mkRunRecord cfg query docs report_md ts]) from rfl]
  exact List.take_left _ _

/-- The summarize stage's per-document condition: the document has
truthy text (`if not d.text: continue`). -/
def hasText (d : SourceDoc) : Bool :=
  optTruthy d.text

/-- The summarize stage's effect on one document. -/
def sumF (backend : String → String → String) (k : Nat) (d : SourceDoc) : SourceDoc :=
  if hasText d then
    { d with summary_bullets := some (chat backend summarizeSystem
        (mkSummaryPrompt k d.title d.url (d.text.getD ""))) }
  else d

/-- The (system, user) request the summarize stage sends for one
document with usable text. -/
def reqF (k : Nat) (d : SourceDoc) : String × String :=
  (summarizeSystem, mkSummaryPrompt k d.title d.url (d.text.getD ""))

lemma hasText_none {d : SourceDoc} (ht : d.text = none) : hasText d = false := by
  simp [hasText, optTruthy, ht]

lemma hasText_empty {d : SourceDoc} (ht : d.text = some "") : hasText d = false := by
  simp [hasText, optTruthy, ht]

lemma hasText_some {d : SourceDoc} {t : String} (ht : d.text = some t)
    (he : t ≠ "") : hasText d = true := by
  simp [hasText, optTruthy, ht, he]

lemma sumF_skip {backend : String → String → String} {k : Nat} {d : SourceDoc}
    (h : hasText d = false) : sumF backend k d = d := by
  rw [sumF, h]
  rfl

lemma sumF_take {backend : String → String → String} {k : Nat} {d : SourceDoc}
    {t : String} (ht : d.text = some t) (he : t ≠ "") :
    sumF backend k d = { d with summary_bullets := some (chat backend summarizeSystem
      (mkSummaryPrompt k d.title d.url t)) } := by
  rw [sumF, hasText_some ht he, if_pos rfl, ht]
  rfl

lemma step_summarize_each_eq (backend : String → String → String) (k : Nat) :
    ∀ docs : List SourceDoc,
      (step_summarize_each backend k docs).1 = docs.map (sumF backend k) ∧
      (step_summarize_each backend k docs).2 = (docs.filter hasText).map (reqF k) := by
  intro docs
  induction docs with
  | nil => exact ⟨rfl, rfl⟩
  | cons d rest ih =>
    cases ht : d.text with
    | none =>
      have e : step_summarize_each backend k (d :: rest) =
          (d :: (step_summarize_each backend k rest).1,
            (step_summarize_each backend k rest).2) := by
        rw [step_summarize_each, ht]
      rw [e]
      constructor
      · rw [List.map_cons, sumF_skip (hasText_none ht), ih.1]
      · rw [List.filter_cons, hasText_none ht]
        simp only [Bool.false_eq_true, if_false]
        exact ih.2
    | some t =>
      by_cases he : t = ""
      · subst he
        have e : step_summarize_each backend k (d :: rest) =
            (d :: (step_summarize_each backend k rest).1,
              (step_summarize_each backend k rest).2) := by
          rw [step_summarize_each, ht]
          simp
        rw [e]
        constructor
        · rw [List.map_cons, sumF_skip (hasText_empty ht), ih.1]
        · rw [List.filter_cons, hasText_empty ht]
          simp only [Bool.false_eq_true, if_false]
          exact ih.2
      · have e : step_summarize_each backend k (d :: rest) =
            ({ d with summary_bullets := some (chat backend summarizeSystem
                  (mkSummaryPrompt k d.title d.url t)) } ::
                (step_summarize_each backend k rest).1,
              (summarizeSystem, mkSummaryPrompt k d.title d.url t) ::
                (step_summarize_each backend k rest).2) := by
          rw [step_summarize_each, ht]
          simp [he]
        rw [e]
        constructor
        · rw [List.map_cons, sumF_take ht he, ih.1]
        · rw [List.filter_cons, hasText_some ht he, if_pos rfl, List.map_cons, ih.2]
          rw [show reqF k d = (summarizeSystem, mkSummaryPrompt k d.title d.url t) by
            rw [reqF, ht]
            rfl]

lemma step_fetch_idx_sublist (env : String → FetchOutcome) (mc : Nat) :
    ∀ docs : List SourceDoc,
      ((step_fetch env mc docs).map fun d => d.idx).Sublist
        (docs.map fun d => d.idx) := by
  intro docs
  induction docs with
  | nil => simp [step_fetch]
  | cons d rest ih =>
    cases hf : fetch (env d.url) with
    | none =>
      rw [step_fetch_cons_none hf, List.map_cons]
      exact ih.trans (List.sublist_cons_self _ _)
    | some t =>
      rw [step_fetch_cons_some hf]
      by_cases hc : t ≠ "" ∧ mc ≤ t.length
      · rw [if_pos hc]
        simp only [List.map_cons]
        exact ih.cons₂ _
      · rw [if_neg hc, List.map_cons]
        exact ih.trans (List.sublist_cons_self _ _)

lemma run_kept_idx_pairwise (env : String → FetchOutcome) (cfg : AgentConfig)
    (raw : List RawResult) :
    ((run_kept env cfg raw).map fun d => d.idx).Pairwise (· < ·) := by
  have h : ((step_search raw).map fun d => d.idx).Pairwise (· < ·) := by
    rw [step_search_idx_range raw]
    exact List.pairwise_lt_range' _ _ _
  exact List.Pairwise.sublist (step_fetch_idx_sublist env cfg.min_chars (step_search raw)) h

/-- Claim C4 (amended): each document with usable text gets exactly one
request, in document order — which in a run is increasing `idx` order —
whose user message contains the document's title, URL and its text
truncated to the first 7000 characters; the backend's text response is
stored as `summary_bullets` after stripping surrounding whitespace
(`content.strip()` in `LLMClient.chat`), not verbatim. -/
theorem step_summarize_contract :
    (∀ (backend : String → String → String) (k : Nat) (docs : List SourceDoc),
      (step_summarize_each backend k docs).2 = (docs.filter hasText).map (reqF k) ∧
      (step_summarize_each backend k docs).1 = docs.map (sumF backend k)) ∧
    (∀ (backend : String → String → String) (system user : String),
      chat backend system user = pyStrip (backend system user)) ∧
    (∀ (k : Nat) (title url text : String), ∃ s1 s2 s3,
      mkSummaryPrompt k title url text =
        s1 ++ title ++ s2 ++ url ++ s3 ++ text.take 7000) ∧
    (∀ (env : String → FetchOutcome) (cfg : AgentConfig) (raw : List RawResult),
      ((run_kept env cfg raw).map fun d => d.idx).Pairwise (· < ·)) := by
  refine ⟨fun backend k docs => ⟨(step_summarize_each_eq backend k docs).2,
      (step_summarize_each_eq backend k docs).1⟩,
    fun _ _ _ => rfl, ?_, run_kept_idx_pairwise⟩
  intro k title url text
  refine ⟨"Summarize the article into " ++ toString k ++ " bullets.\n\nTITLE: ",
    "\nURL: ", "\n\nARTICLE:\n", ?_⟩
  simp only [mkSummaryPrompt, String.append_assoc]

/-- Counterexample to claim C4 as stated: a backend response carrying
surrounding whitespace is stored stripped, not verbatim. -/
theorem step_summarize_verbatim_counterexample :
    ((step_summarize_each (fun _ _ => " B ") 3
        [{ idx := 1, title := "t", url := "u", text := some "x" }]).1.map
      fun d => d.summary_bullets) = [some "B"] ∧
    (" B " : String) ≠ "B" := ⟨rfl, by decide⟩

lemma optTruthy_some_ne {s : String} (h : optTruthy (some s) = true) : s ≠ "" := by
  simpa [optTruthy] using h

/-- Claim C5: a document participates in synthesis (is in the filtered
list from which both the per-source bullet block and the source list of
the synthesis prompt are built) or in the persisted record's sources
only if both its `text` and its `summary_bullets` are set (and
non-empty), and its `idx`, `title`, `url` and `snippet` are exactly
those given to it at creation by `step_search` — never reassigned. -/
theorem synthesis_participation :
    ∀ (env : String → FetchOutcome) (backend : String → String → String)
      (cfg : AgentConfig) (raw : List RawResult),
      (∀ d ∈ synthUsed (run_docs env backend cfg raw),
        (∃ t, d.text = some t ∧ t ≠ "") ∧
        (∃ s, d.summary_bullets = some s ∧ s ≠ "") ∧
        ∃ d0 ∈ step_search raw, d.idx = d0.idx ∧ d.title = d0.title ∧
          d.url = d0.url ∧ d.snippet = d0.snippet) ∧
      (∀ query report_md ts : String,
        (mkRunRecord cfg query (run_docs env backend cfg raw) report_md ts).sources =
          (synthUsed (run_docs env backend cfg raw)).map fun d => (d.idx, d.title, d.url)) := by
  intro env backend cfg raw
  refine ⟨?_, fun query report_md ts => rfl⟩
  intro d hd
  rw [synthUsed, run_docs] at hd
  have hd1 := List.mem_filter.1 hd
  have hd2 := List.mem_filter.1 hd1.1
  have hbul : optTruthy d.summary_bullets = true := hd1.2
  have hmem1 := hd2.1
  rw [(step_summarize_each_eq backend cfg.per_source_bullets (run_kept env cfg raw)).1] at hmem1
  obtain ⟨d1, hd1mem, rfl⟩ := List.mem_map.1 hmem1
  obtain ⟨d0, hd0, t, _, ht, _, rfl⟩ :=
    (step_fetch_mem_iff env cfg.min_chars (step_search raw) d1).1 hd1mem
  rw [sumF_take rfl ht] at hbul ⊢
  exact ⟨⟨t, rfl, ht⟩,
    ⟨chat backend summarizeSystem
        (mkSummaryPrompt cfg.per_source_bullets d0.title d0.url t),
      rfl, optTruthy_some_ne hbul⟩,
    d0, hd0, rfl, rfl, rfl, rfl⟩

/-- Witness for claim C5: the participating document of a concrete run
has text and bullets set and carries its creation-time fields. -/
theorem synthesis_participation_witness :
    (∃ t, (SourceDoc.mk 1 "t" "u" "" (some "x") (some "b")).text = some t ∧ t ≠ "") ∧
    (∃ s, (SourceDoc.mk 1 "t" "u" "" (some "x") (some "b")).summary_bullets = some s ∧
      s ≠ "") ∧
    ∃ d0 ∈ step_search [RawResult.mk "t" "u" ""],
      (SourceDoc.mk 1 "t" "u" "" (some "x") (some "b")).idx = d0.idx ∧
      (SourceDoc.mk 1 "t" "u" "" (some "x") (some "b")).title = d0.title ∧
      (SourceDoc.mk 1 "t" "u" "" (some "x") (some "b")).url = d0.url ∧
      (SourceDoc.mk 1 "t" "u" "" (some "x") (some "b")).snippet = d0.snippet :=
  (synthesis_participation (fun _ => FetchOutcome.content (some "x")) (fun _ _ => "b")
    { min_chars := 1 } [RawResult.mk "t" "u" ""]).1
    (SourceDoc.mk 1 "t" "u" "" (some "x") (some "b"))
    (by
      rw [show synthUsed (run_docs (fun _ => FetchOutcome.content (some "x"))
          (fun _ _ => "b") { min_chars := 1 } [RawResult.mk "t" "u" ""]) =
          [SourceDoc.mk 1 "t" "u" "" (some "x") (some "b")] from rfl]
      exact List.mem_singleton_self _)

lemma safe_json_parse_fallback {out : String} (h1 : jsonLoads (pyStrip out) = none)
    (h2 : ∀ b, extractBlock (pyStrip out) = some b → jsonLoads b = none) :
    safe_json_parse out = fallbackAnswer (pyStrip out) := by
  cases hb : extractBlock (pyStrip out) with
  | none => simp [safe_json_parse, h1, hb]
  | some b => simp [safe_json_parse, h1, hb, h2 b hb]

lemma execute_action_of_fallback (geoEnv : String → GeoResponse)
    (wxEnv : String → WeatherResponse) (out s : String)
    (h : safe_json_parse out = fallbackAnswer s) :
    execute_action geoEnv wxEnv out = .ok (Json.str s) := by
  rw [execute_action, h]
  rfl

/-- Claim C8 (amended): on the raw output
`Sure! {"action": "answer", "args": {"text": "hi"}} thanks` the
JSON-extraction fallback locates the embedded object and `execute_action`
returns "hi"; and for every output on which neither the whole string nor
the extracted brace-delimited block parses as JSON, the stripped output
(leading and trailing whitespace removed, as `safe_json_parse` strips
its input first) is returned as a plain answer. -/
theorem execute_action_fallback :
    (∀ (geoEnv : String → GeoResponse) (wxEnv : String → WeatherResponse),
      execute_action geoEnv wxEnv
        "Sure! \x7b\"action\": \"answer\", \"args\": \x7b\"text\": \"hi\"\x7d\x7d thanks" =
        .ok (Json.str "hi")) ∧
    (∀ (geoEnv : String → GeoResponse) (wxEnv : String → WeatherResponse) (out : String),
      jsonLoads (pyStrip out) = none →
      (∀ b, extractBlock (pyStrip out) = some b → jsonLoads b = none) →
      execute_action geoEnv wxEnv out = .ok (Json.str (pyStrip out))) := by
  constructor
  · intro geoEnv wxEnv
    rfl
  · intro geoEnv wxEnv out h1 h2
    exact execute_action_of_fallback geoEnv wxEnv out (pyStrip out)
      (safe_json_parse_fallback h1 h2)

/-- Witness for claim C8: a concrete non-JSON output without braces is
returned as a plain answer. -/
theorem execute_action_fallback_witness :
    execute_action (fun _ => GeoResponse.mk none) (fun _ => WeatherResponse.mk none)
      "hola!" = .ok (Json.str (pyStrip "hola!")) :=
  (execute_action_fallback).2 (fun _ => GeoResponse.mk none)
    (fun _ => WeatherResponse.mk none) "hola!" rfl
    (fun b hb => by
      rw [show extractBlock (pyStrip "hola!") = none from rfl] at hb
      exact Option.noConfusion hb)

/-- Counterexample to claim C8 as stated: for a non-JSON output with
surrounding whitespace, the fallback answers with the stripped output,
not with the entire output. -/
theorem execute_action_strip_counterexample :
    execute_action (fun _ => GeoResponse.mk none) (fun _ => WeatherResponse.mk none)
      " hola " = .ok (Json.str "hola") ∧
    execute_action (fun _ => GeoResponse.mk none) (fun _ => WeatherResponse.mk none)
      " hola " ≠ .ok (Json.str " hola ") := by
  refine ⟨rfl, ?_⟩
  rw [show execute_action (fun _ => GeoResponse.mk none)
      (fun _ => WeatherResponse.mk none) " hola " = .ok (Json.str "hola") from rfl]
  intro h
  exact absurd (Json.str.inj (Except.ok.inj h)) (by decide)

/-- Claim C9 (amended): when the geocoding response lacks the `results`
key, `get_weather` returns the literal "city not found" message naming
the city, rather than raising. -/
theorem get_weather_city_not_found :
    ∀ (geoEnv : String → GeoResponse) (wxEnv : String → WeatherResponse) (city : String),
      (geoEnv (geoUrl city)).results = none →
      get_weather geoEnv wxEnv city = .ok ("No encontré la ciudad " ++ city ++ ".") ∧
      ∃ pre post, get_weather geoEnv wxEnv city = .ok (pre ++ city ++ post) := by
  intro geoEnv wxEnv city h
  have e : get_weather geoEnv wxEnv city =
      .ok ("No encontré la ciudad " ++ city ++ ".") := by
    rw [get_weather, h]
  exact ⟨e, "No encontré la ciudad ", ".", e⟩

/-- Witness for claim C9: a concrete city whose geocoding response has
no `results` key produces the not-found message. -/
theorem get_weather_city_not_found_witness :
    get_weather (fun _ => GeoResponse.mk none) (fun _ => WeatherResponse.mk none)
      "Zzzxqplorp" = .ok ("No encontré la ciudad " ++ "Zzzxqplorp" ++ ".") :=
  (get_weather_city_not_found (fun _ => GeoResponse.mk none)
    (fun _ => WeatherResponse.mk none) "Zzzxqplorp" rfl).1

/-- Counterexample to claim C9 as stated: a geocoding response that
contains a `results` key with an empty list also contains no results,
yet the code indexes `results[0]` and raises an `IndexError` instead of
returning the not-found message. -/
theorem get_weather_empty_results_counterexample :
    ((fun _ => GeoResponse.mk (some [])) (geoUrl "Zzzxqplorp")).results =
      some ([] : List GeoResult) ∧
    get_weather (fun _ => GeoResponse.mk (some [])) (fun _ => WeatherResponse.mk none)
      "Zzzxqplorp" = .error "IndexError: list index out of range" :=
  ⟨rfl, rfl⟩

end BasicLLM
